import Mathlib

/-!
# Verification of the Filfox contract-verifier import-closure resolver

This file gives a shallow embedding, in Lean 4, of the `FilfoxVerifier`
TypeScript class (remapping parsing, import extraction, import-path
resolution, the breadth-first closure builder, compiler-version
normalization, endpoint selection, and the `verify` entry point), and
proves or refutes the specification claims about it.

JS strings are modelled as Lean `String`s manipulated through their
underlying `List Char`; JS objects used as string-keyed dictionaries
(`Record<string, SourceFile>`) are modelled as association lists whose
`set` operation overwrites in place (preserving the insertion position of
an existing key) and appends new keys, matching JS property-insertion
order.  Bare indexed reads `obj[k]` also consult the JS prototype chain
(a key such as `"constructor"` yields a truthy inherited member even
when unbound); the `…JS`-suffixed resolver definitions model this, while
the plain ones are the own-key restriction.  JS exceptions are modelled
with `Except JsError`.
-/

set_option autoImplicit false

deriving instance DecidableEq for Except

namespace Filfox

/-- JS whitespace class (the characters relevant to this code base). -/
def isSpaceJS (c : Char) : Bool :=
  c = ' ' || c = '\t' || c = '\n' || c = '\r' || c = '\x0b' || c = '\x0c'

/-- Regex `\w` character class: letters, digits, underscore. -/
def isWordJS (c : Char) : Bool :=
  c.isAlpha || c.isDigit || c = '_'

/-- Either quote character, as in the regex class `["']`. -/
def isQuote (c : Char) : Bool :=
  c = '"' || c = '\''

/-- `String.prototype.trim`: strip leading and trailing whitespace. -/
def trimJS (s : String) : String :=
  String.mk (((s.data.dropWhile isSpaceJS).reverse.dropWhile isSpaceJS).reverse)

/-- Split a character list on every occurrence of `sep`
(JS `String.prototype.split` with a one-character separator:
`"a=b=c".split("=") = ["a","b","c"]`, `"x".split("=") = ["x"]`). -/
def splitOnCharL (sep : Char) : List Char → List (List Char)
  | [] => [[]]
  | c :: cs =>
    if c = sep then [] :: splitOnCharL sep cs
    else
      match splitOnCharL sep cs with
      | [] => [[c]]
      | h :: t => (c :: h) :: t

/-- JS `s.split(sep)` for a one-character separator. -/
def splitJS (sep : Char) (s : String) : List String :=
  (splitOnCharL sep s.data).map String.mk

/-- JS `s.startsWith(pre)`. -/
def startsWithJS (s pre : String) : Bool :=
  pre.data.isPrefixOf s.data

/-- JS `s.includes(sub)` for a one-character needle
(the only use in the source is `compiler.includes("v")`). -/
def includesCharJS (s : String) (c : Char) : Bool :=
  s.data.contains c

/-- JS `s.replace(pat, rep)` with a string pattern: replace the first
occurrence of `pat` (if any) by `rep`.  (The source only calls this with
plain replacement strings, so `$`-patterns are not modelled.) -/
def replaceFirstL (pat rep : List Char) : List Char → List Char
  | [] => if pat.isPrefixOf ([] : List Char) then rep else []
  | c :: cs =>
    if pat.isPrefixOf (c :: cs) then rep ++ (c :: cs).drop pat.length
    else c :: replaceFirstL pat rep cs

/-- JS `s.replace(pat, rep)` on `String`. -/
def replaceFirstJS (s pat rep : String) : String :=
  String.mk (replaceFirstL pat.data rep.data s.data)

/-! ## JS object-as-dictionary model (`Record<string, α>`) -/

/-- First-match lookup of an own entry (`none` models `undefined`).
A bare JS read `obj[k]` additionally consults the prototype chain — see
`recGetJS` further below; the resolver definitions built on `recGet`
alone are the own-key restriction of the read semantics, exact whenever
no looked-up key names an `Object.prototype` member. -/
def recGet {α : Type} : List (String × α) → String → Option α
  | [], _ => none
  | e :: es, k => if e.1 = k then some e.2 else recGet es k

/-- JS `obj[k] = v`: overwrite in place if the key exists (keeping its
position in insertion order), append otherwise. -/
def recSet {α : Type} : List (String × α) → String → α → List (String × α)
  | [], k, v => [(k, v)]
  | e :: es, k, v => if e.1 = k then (k, v) :: es else e :: recSet es k v

/-- JS `Object.keys`. -/
def recKeys {α : Type} (r : List (String × α)) : List String :=
  r.map (·.1)

/-- JS object spread `{...a, ...b}`: entries of `a` first, then each entry
of `b` inserted (overwriting `a`'s value on an equal key). -/
def recMerge {α : Type} (a b : List (String × α)) : List (String × α) :=
  b.foldl (fun acc e => recSet acc e.1 e.2) a

/-! ## Data model of the source -/

/-- `interface SourceFile { content: string }` -/
structure SourceFile where
  content : String
deriving DecidableEq

/-- One parsed remapping rule `{ original, resolved }`. -/
structure Remapping where
  original : String
  resolved : String
deriving DecidableEq

/-- `interface ImportResolver` -/
structure ImportResolver where
  sourceFiles : List (String × SourceFile)
  remappedSourceFiles : List (String × SourceFile)
  remappings : List Remapping

/-- JS runtime errors as observed by the `try`/`catch` in `verify`. -/
inductive JsError where
  | typeError (msg : String)
  | jsError (msg : String)
deriving DecidableEq

/-! ## parseRemappings -/

/-- The body of the `map` callback in `parseRemappings`:
`const [original, resolved] = mapping.split("="); return {original:
original.trim(), resolved: resolved.trim()}`.  When the string contains
no `=`, the destructured `resolved` is `undefined` and `resolved.trim()`
throws a `TypeError`. -/
def parseRemapping1 (mapping : String) : Except JsError Remapping :=
  match splitJS '=' mapping with
  | original :: resolved :: _ =>
    .ok { original := trimJS original, resolved := trimJS resolved }
  | _ => .error (.typeError "Cannot read properties of undefined (reading trim)")

/-- `FilfoxVerifier.parseRemappings`: `remappingsArray.map(...)` with a
callback that can throw — it maps left to right and propagates the first
thrown error. -/
def parseRemappings : List String → Except JsError (List Remapping)
  | [] => .ok []
  | mapping :: rest =>
    match parseRemapping1 mapping with
    | .error e => .error e
    | .ok r =>
      match parseRemappings rest with
      | .error e => .error e
      | .ok rs => .ok (r :: rs)

/-! ## normalizeCompilerVersion -/

/-- `FilfoxVerifier.normalizeCompilerVersion`:
`compiler.includes("v") ? compiler : "v" + compiler`. -/
def normalizeCompilerVersion (compiler : String) : String :=
  if includesCharJS compiler 'v' then compiler else "v" ++ compiler

/-! ## Chain-endpoint table and constructor -/

/-- `FilfoxVerifier.FILFOX_NETWORKS` — lookup of the static table. -/
def FILFOX_NETWORKS (chainId : Int) : Option String :=
  if chainId = 314 then some "https://filfox.info/api/v1/tools/verifyContract"
  else if chainId = 314159 then
    some "https://calibration.filfox.info/api/v1/tools/verifyContract"
  else none

/-- The state a successfully constructed `FilfoxVerifier` holds. -/
structure Verifier where
  baseUrl : String
  chainId : Int
deriving DecidableEq

/-- `FilfoxVerifier.constructor`: look the chain id up in the static
table; if the result is falsy (absent), throw before anything else. -/
def Verifier.construct (chainId : Int) : Except String Verifier :=
  match FILFOX_NETWORKS chainId with
  | some url => .ok { baseUrl := url, chainId := chainId }
  | none => .error ("Unsupported chain ID: " ++ toString chainId)

/-! ## Node `path` (posix) primitives used by the source

`path.basename`, `path.dirname`, `path.join`, `path.normalize` as Node's
posix implementation behaves on the relative, forward-slash paths this
code handles. -/

/-- `path.basename`: final path segment, ignoring trailing slashes. -/
def basenameJS (s : String) : String :=
  String.mk (((s.data.reverse.dropWhile (· = '/')).takeWhile (· ≠ '/')).reverse)

/-- `path.dirname`: everything before the final segment (ignoring
trailing slashes); `"."` when there is no directory part. -/
def dirnameJS (s : String) : String :=
  let r := s.data.reverse.dropWhile (· = '/')
  match r.dropWhile (· ≠ '/') with
  | [] => "."
  | _ :: rest => if rest.isEmpty then "/" else String.mk rest.reverse

/-- Segment processing of `path.normalize` for relative paths: drop empty
and `"."` segments, cancel `".."` against a preceding real segment. -/
def normalizeSegs : List String → List String → List String
  | acc, [] => acc.reverse
  | acc, s :: rest =>
    if s = "" || s = "." then normalizeSegs acc rest
    else if s = ".." then
      match acc with
      | [] => normalizeSegs [".."] rest
      | t :: ts => if t = ".." then normalizeSegs (".." :: t :: ts) rest
                   else normalizeSegs ts rest
    else normalizeSegs (s :: acc) rest

/-- `path.normalize` on a relative path. -/
def pathNormalize (s : String) : String :=
  let out := String.intercalate "/" (normalizeSegs [] (splitJS '/' s))
  if out = "" then "." else out

/-- `path.join(a, b)`: concatenate with a slash and normalize. -/
def pathJoin (a b : String) : String :=
  pathNormalize (a ++ "/" ++ b)

/-! ## extractImports

The four regular expressions are executed one after the other over the
whole content, each collecting its matches left to right; a match always
starts with the literal `import` and consumes at least one character, so
a fuel of `content.length` covers every scan step. -/

/-- Expect the literal characters `lit` at the head. -/
def litChars : List Char → List Char → Option (List Char)
  | [], s => some s
  | _ :: _, [] => none
  | c :: cs, x :: xs => if x = c then litChars cs xs else none

/-- One-or-more characters of class `p` (greedy), as in `\s+` / `\w+`. -/
def chompClass1 (p : Char → Bool) : List Char → Option (List Char)
  | [] => none
  | c :: cs => if p c then some (cs.dropWhile p) else none

/-- Zero-or-more characters of class `p` (greedy), as in `\s*`. -/
def chompClass0 (p : Char → Bool) (s : List Char) : List Char :=
  s.dropWhile p

/-- Exactly one character of class `p`. -/
def oneClass (p : Char → Bool) : List Char → Option (List Char)
  | [] => none
  | c :: cs => if p c then some cs else none

/-- Capture one-or-more characters of class `p` (greedy). -/
def grabClass1 (p : Char → Bool) (s : List Char) : Option (List Char × List Char) :=
  match s with
  | [] => none
  | c :: cs => if p c then some ((c :: cs).takeWhile p, (c :: cs).dropWhile p) else none

/-- One atom of the fixed regexes of `extractImports`: a literal, a
one-or-more class (`\s+`, `\w+`), a zero-or-more class (`\s*`, `[^}]*`),
or a single-character class (`["']`, `\{`).  Adjacent greedy classes in
those regexes have disjoint alphabets, so greedy matching without
backtracking is exact. -/
inductive RTok where
  | lit (cs : List Char)
  | class1 (p : Char → Bool)
  | class0 (p : Char → Bool)
  | one (p : Char → Bool)

/-- Match a sequence of regex atoms at the current position. -/
def runToks : List RTok → List Char → Option (List Char)
  | [], s => some s
  | t :: ts, s =>
    match
      (match t with
       | .lit cs => litChars cs s
       | .class1 p => chompClass1 p s
       | .class0 p => some (chompClass0 p s)
       | .one p => oneClass p s) with
    | none => none
    | some s' => runToks ts s'

/-- Match `pre`, then the capture group `([^"']+)`, then the closing
`["']`, returning the capture and the rest of the input. -/
def tryRegex (pre : List RTok) (s : List Char) : Option (String × List Char) :=
  match runToks pre s with
  | none => none
  | some s =>
    match grabClass1 (fun c => !(isQuote c)) s with
    | none => none
    | some (cap, s) =>
      match oneClass isQuote s with
      | none => none
      | some s => some (String.mk cap, s)

/-- Regex 1: `import\s+["']([^"']+)["']` tried at the current position;
returns the capture and the rest of the input after the match. -/
def tryR1 : List Char → Option (String × List Char) :=
  tryRegex [.lit "import".data, .class1 isSpaceJS, .one isQuote]

/-- Regex 2: `import\s*\{[^}]*\}\s*from\s+["']([^"']+)["']`. -/
def tryR2 : List Char → Option (String × List Char) :=
  tryRegex [.lit "import".data, .class0 isSpaceJS, .one (· = '{'), .class0 (· ≠ '}'),
    .one (· = '}'), .class0 isSpaceJS, .lit "from".data, .class1 isSpaceJS, .one isQuote]

/-- Regex 3: `import\s+\*\s+as\s+\w+\s+from\s+["']([^"']+)["']`. -/
def tryR3 : List Char → Option (String × List Char) :=
  tryRegex [.lit "import".data, .class1 isSpaceJS, .one (· = '*'), .class1 isSpaceJS,
    .lit "as".data, .class1 isSpaceJS, .class1 isWordJS, .class1 isSpaceJS,
    .lit "from".data, .class1 isSpaceJS, .one isQuote]

/-- Regex 4: `import\s+\w+\s+from\s+["']([^"']+)["']`. -/
def tryR4 : List Char → Option (String × List Char) :=
  tryRegex [.lit "import".data, .class1 isSpaceJS, .class1 isWordJS, .class1 isSpaceJS,
    .lit "from".data, .class1 isSpaceJS, .one isQuote]

/-- `regex.exec` loop with the `g` flag: find the leftmost match at or
after the current position, collect its capture, resume after the match;
on failure at a position, advance one character. -/
def scanAux (tryM : List Char → Option (String × List Char)) : Nat → List Char → List String
  | 0, _ => []
  | fuel + 1, s =>
    match s with
    | [] => []
    | _ :: rest =>
      match tryM s with
      | some (cap, s') => cap :: scanAux tryM fuel s'
      | none => scanAux tryM fuel rest

/-- All captures of one regex over the whole content, left to right. -/
def scanRegex (tryM : List Char → Option (String × List Char)) (content : String) : List String :=
  scanAux tryM content.data.length content.data

/-- The push step of `extractImports`:
`if (importPath && !imports.includes(importPath)) imports.push(importPath)`. -/
def pushImport (acc : List String) (p : String) : List String :=
  if p ≠ "" && !(acc.contains p) then acc ++ [p] else acc

/-- `FilfoxVerifier.extractImports`: run the four regexes in their fixed
order, pushing each capture that is non-empty and not yet collected. -/
def extractImports (content : String) : List String :=
  (scanRegex tryR1 content ++ scanRegex tryR2 content
    ++ scanRegex tryR3 content ++ scanRegex tryR4 content).foldl pushImport []

/-! ## createRemappedSourceFiles -/

/-- `FilfoxVerifier.createRemappedSourceFiles`: for each source file whose
path starts with some rule's `resolved` string (first matching rule), store
its content again under the path with that `resolved` prefix replaced by
the rule's `original` string. -/
def createRemappedSourceFiles (sourceFiles : List (String × SourceFile))
    (remappings : List Remapping) : List (String × SourceFile) :=
  sourceFiles.foldl
    (fun remappedFiles e =>
      match remappings.find? (fun mapping => startsWithJS e.1 mapping.resolved) with
      | some remapping =>
        recSet remappedFiles (replaceFirstJS e.1 remapping.resolved remapping.original) e.2
      | none => remappedFiles)
    []

/-! ## Import-path resolution strategies -/

/-- `FilfoxVerifier.resolveRelativeImport`:
`path.normalize(path.join(path.dirname(currentFile), importPath))`. -/
def resolveRelativeImport (importPath currentFile : String) : String :=
  pathNormalize (pathJoin (dirnameJS currentFile) importPath)

/-- Stable insertion step for sorting remappings by strictly decreasing
`original` length: an element is placed before the first entry whose
`original` is not strictly longer, so that equal lengths keep their
first-declared order.  Any stable sort produces this same unique order,
so this models `Array.prototype.sort` (stable per the ES spec) with the
comparator `(a, b) => b.original.length - a.original.length`. -/
def insertByOrigLenDesc (m : Remapping) : List Remapping → List Remapping
  | [] => [m]
  | b :: bs =>
    if m.original.length < b.original.length then b :: insertByOrigLenDesc m bs
    else m :: b :: bs

/-- Stable sort of remappings by decreasing `original` length. -/
def stableSortByOrigLenDesc : List Remapping → List Remapping
  | [] => []
  | m :: ms => insertByOrigLenDesc m (stableSortByOrigLenDesc ms)

/-- `FilfoxVerifier.resolveRemappedImport`: keep the rules whose
`original` is a prefix of the import, sort them by decreasing `original`
length (stable), and rewrite the import through the first one. -/
def resolveRemappedImport (importPath : String) (remappings : List Remapping) : Option String :=
  match stableSortByOrigLenDesc
      (remappings.filter (fun mapping => startsWithJS importPath mapping.original)) with
  | [] => none
  | mapping :: _ => some (replaceFirstJS importPath mapping.original mapping.resolved)

/-- `FilfoxVerifier.pathContextMatches`: count how many non-trivial
segments of the import path occur among the candidate's segments; accept
when at most one segment misses (`matches >= max(1, segments - 1)`). -/
def pathContextMatches (importPath availablePath : String) : Bool :=
  let importSegments := (splitJS '/' importPath).filter
    (fun s => s ≠ "" && s ≠ "." && s ≠ "..")
  let availableSegments := (splitJS '/' availablePath).filter
    (fun s => s ≠ "" && s ≠ "." && s ≠ "..")
  let matchCount := (importSegments.filter (fun s => availableSegments.contains s)).length
  decide (matchCount ≥ max 1 (importSegments.length - 1))

/-- Strategy 2 of `resolveImportPath`: relative import resolved against
the directory of the current file, accepted only on a hit. -/
def tryRelativeImport (importPath currentFile : String)
    (availableFiles : List (String × SourceFile)) : Option (String × SourceFile) :=
  if startsWithJS importPath "./" || startsWithJS importPath "../" then
    let resolvedPath := resolveRelativeImport importPath currentFile
    (recGet availableFiles resolvedPath).map (fun f => (resolvedPath, f))
  else none

/-- Strategy 3 of `resolveImportPath`: rewrite through the remapping
table, accepted only when the rewritten path is truthy and a hit. -/
def tryRemappedImport (importPath : String) (remappings : List Remapping)
    (availableFiles : List (String × SourceFile)) : Option (String × SourceFile) :=
  match resolveRemappedImport importPath remappings with
  | some remappedPath =>
    if remappedPath ≠ "" then
      (recGet availableFiles remappedPath).map (fun f => (remappedPath, f))
    else none
  | none => none

/-- Strategy 4 of `resolveImportPath`: first file (in insertion order)
with the same base filename whose path context matches. -/
def tryFilenameFallback (importPath : String)
    (availableFiles : List (String × SourceFile)) : Option (String × SourceFile) :=
  let fileName := basenameJS importPath
  availableFiles.find? (fun e => basenameJS e.1 = fileName && pathContextMatches importPath e.1)

/-- The four strategies of `resolveImportPath` in source order: direct
hit, relative, remapped, filename fallback; first success wins. -/
def resolveImportPathCore (importPath currentFile : String) (remappings : List Remapping)
    (availableFiles : List (String × SourceFile)) : Option (String × SourceFile) :=
  match (recGet availableFiles importPath).map (fun f => (importPath, f)) with
  | some r => some r
  | none =>
    match tryRelativeImport importPath currentFile availableFiles with
    | some r => some r
    | none =>
      match tryRemappedImport importPath remappings availableFiles with
      | some r => some r
      | none => tryFilenameFallback importPath availableFiles

/-- `FilfoxVerifier.resolveImportPath`: the strategy chain; the second
component is the list of `console.warn` diagnostics the call emits — on
total failure, the pair (unresolved import, referencing file). -/
def resolveImportPath (importPath currentFile : String) (remappings : List Remapping)
    (availableFiles : List (String × SourceFile)) :
    Option (String × SourceFile) × List (String × String) :=
  match resolveImportPathCore importPath currentFile remappings availableFiles with
  | some r => (some r, [])
  | none => (none, [(importPath, currentFile)])

/-! ## resolveNecessaryImports (the closure builder) -/

/-- One pass over the imports of the file just admitted: resolve
each import and append every resolved, not-yet-processed path to the
queue, collecting diagnostics. -/
def enqueueImports (imports : List String) (currentFile : String)
    (remappings : List Remapping) (availableFiles : List (String × SourceFile))
    (processed : List String) (queue : List String) (warns : List (String × String)) :
    List String × List (String × String) :=
  imports.foldl
    (fun qw importPath =>
      match resolveImportPath importPath currentFile remappings availableFiles with
      | (some r, w) =>
        (if processed.contains r.1 then qw.1 else qw.1 ++ [r.1], qw.2 ++ w)
      | (none, w) => (qw.1, qw.2 ++ w))
    (queue, warns)

/-- The `while (queue.length > 0)` loop of `resolveNecessaryImports`.
The loop is modelled with explicit fuel; every iteration dequeues one
element, and elements are only ever enqueued either initially or, at most
once per available file, one per extracted import, so
`initial queue length + Σ (imports of each available file)` iterations
always suffice (see `resolveNecessaryImports`). -/
def bfsLoop (remappings : List Remapping) (availableFiles : List (String × SourceFile)) :
    Nat → List String → List String → List (String × SourceFile) →
    List (String × String) → List (String × SourceFile) × List (String × String)
  | 0, _, _, necessaryFiles, warns => (necessaryFiles, warns)
  | _ + 1, [], _, necessaryFiles, warns => (necessaryFiles, warns)
  | fuel + 1, currentFile :: rest, processed, necessaryFiles, warns =>
    if processed.contains currentFile then
      bfsLoop remappings availableFiles fuel rest processed necessaryFiles warns
    else
      match recGet availableFiles currentFile with
      | none =>
        bfsLoop remappings availableFiles fuel rest (currentFile :: processed)
          necessaryFiles warns
      | some file =>
        let step := enqueueImports (extractImports file.content) currentFile remappings
          availableFiles (currentFile :: processed) rest warns
        bfsLoop remappings availableFiles fuel step.1 (currentFile :: processed)
          (recSet necessaryFiles currentFile file) step.2

/-- Seed-membership test for one original path: `true` when some remapped
path is exactly this path rewritten through a rule whose `resolved`
prefix it carries (the `hasRemappedVersion` check in the source). -/
def hasRemappedVersion (resolver : ImportResolver) (originalPath : String) : Bool :=
  (recKeys resolver.remappedSourceFiles).any
    (fun remappedPath =>
      resolver.remappings.any
        (fun mapping =>
          startsWithJS originalPath mapping.resolved &&
            remappedPath = replaceFirstJS originalPath mapping.resolved mapping.original))

/-- `FilfoxVerifier.resolveNecessaryImports`: merge originals with their
remapped aliases (aliases shadowing originals), seed the queue with every
remapped path followed by every original path without a remapped
version, and run the BFS.  Returns the necessary-file map and the
emitted diagnostics. -/
def resolveNecessaryImports (resolver : ImportResolver) :
    List (String × SourceFile) × List (String × String) :=
  let allAvailableFiles := recMerge resolver.sourceFiles resolver.remappedSourceFiles
  let queue := recKeys resolver.remappedSourceFiles
    ++ (recKeys resolver.sourceFiles).filter (fun p => !(hasRemappedVersion resolver p))
  let fuel := queue.length
    + (allAvailableFiles.map (fun e => (extractImports e.2.content).length)).sum
  bfsLoop resolver.remappings allAvailableFiles fuel queue [] [] []

/-! ## The `verify` entry point

`verify` wraps its whole body in `try`/`catch`; the `catch` returns the
synthetic `{ errorCode: 8 }`.  The network exchange (`fetch` +
`response.json()`) is modelled by a caller-supplied `transport` function
from the endpoint URL and request body to either a parsed server reply or
a thrown error. -/

/-- `metadata.settings` (absent field modelled by `none`). -/
structure MetaSettings where
  remappings : Option (List String)

/-- The `metadata: any` argument: `none` models `undefined`. -/
structure Metadata where
  settings : Option MetaSettings

/-- The caller-supplied `VerificationRequest`. -/
structure VerificationRequest where
  address : String
  language : String
  compiler : String
  optimize : Bool
  optimizeRuns : Int
  sourceFiles : List (String × SourceFile)
  license : String
  evmVersion : String
  viaIR : Bool
  libraries : String
  metadata : Option Metadata
  optimizerDetails : String

/-- Evaluation of `request.metadata.settings.remappings` followed by the
`remappingsArray.map(...)` call: each missing level throws a `TypeError`
(reading a property of `undefined`, or calling `.map` on `undefined`). -/
def getMetadataRemappings (metadata : Option Metadata) : Except JsError (List String) :=
  match metadata with
  | none => .error (.typeError "Cannot read properties of undefined (reading settings)")
  | some md =>
    match md.settings with
    | none => .error (.typeError "Cannot read properties of undefined (reading remappings)")
    | some st =>
      match st.remappings with
      | none => .error (.typeError "Cannot read properties of undefined (reading map)")
      | some remappingsArray => .ok remappingsArray

/-- The wire payload built by `verify` (`metadata` cleared to `""`,
`sourceFiles` replaced by the necessary files). -/
structure RequestBody where
  address : String
  language : String
  compiler : String
  optimize : Bool
  optimizeRuns : Int
  sourceFiles : List (String × SourceFile)
  license : String
  evmVersion : String
  viaIR : Bool
  libraries : String
  metadata : String
  optimizerDetails : String

/-- The JSON reply decoded from the server (fields beyond these are not
read by any caller in the repository). -/
structure FilfoxResult where
  errorCode : Int
  contractName : Option String
  errorMsg : Option String
deriving DecidableEq

/-- The body of the `try` block of `FilfoxVerifier.verify`: parse the
remappings out of the metadata, build the remapped alias map, run the
closure builder, assemble the wire payload and perform the exchange.
Any thrown `JsError` propagates to the `catch`. -/
def verifyInner (v : Verifier) (request : VerificationRequest)
    (transport : String → RequestBody → Except JsError FilfoxResult) :
    Except JsError FilfoxResult :=
  match getMetadataRemappings request.metadata with
  | .error e => .error e
  | .ok remappingsArray =>
    match parseRemappings remappingsArray with
    | .error e => .error e
    | .ok remappings =>
      let remappedSourceFiles := createRemappedSourceFiles request.sourceFiles remappings
      let necessaryFiles := (resolveNecessaryImports
        { sourceFiles := request.sourceFiles
          remappedSourceFiles := remappedSourceFiles
          remappings := remappings }).1
      let requestBody : RequestBody :=
        { address := request.address
          language := request.language
          compiler := normalizeCompilerVersion request.compiler
          optimize := request.optimize
          optimizeRuns := request.optimizeRuns
          sourceFiles := necessaryFiles
          license := request.license
          evmVersion := request.evmVersion
          viaIR := request.viaIR
          libraries := request.libraries
          metadata := ""
          optimizerDetails := request.optimizerDetails }
      transport v.baseUrl requestBody

/-- `FilfoxVerifier.verify`: the `try`/`catch` wrapper — any error from
the body is swallowed and turned into the synthetic `{ errorCode: 8 }`. -/
def verify (v : Verifier) (request : VerificationRequest)
    (transport : String → RequestBody → Except JsError FilfoxResult) : FilfoxResult :=
  match verifyInner v request transport with
  | .ok result => result
  | .error _ => { errorCode := 8, contractName := none, errorMsg := none }

/-! ## Prototype-chain property reads

A bare indexed read `obj[k]` on a plain JS object consults the prototype
chain: when `k` is not an own key but names a member of
`Object.prototype` (`"constructor"`, `"toString"`, …), the read yields
that inherited member — a function or object, hence truthy.
`Object.keys` / `Object.entries` list own keys only, and an own-property
write at an ordinary key is unaffected.  The source's strategy lookups
(`availableFiles[importPath]` and the relative/remapped variants) and
the loop's availability check `allAvailableFiles[currentFile]` are such
bare reads, so they can "hit" at a key the map does not bind.  The
`…JS`-suffixed definitions below model those reads with the prototype
chain; the plain definitions above are their own-key restriction, which
coincides with them whenever no looked-up key names an
`Object.prototype` member (true of the other scenarios in this file,
whose paths and imports use ordinary names). -/

/-- The own property names of `Object.prototype` — the keys at which a
prototype-chain read on a plain object yields a truthy inherited value. -/
def objectProtoProps : List String :=
  ["constructor", "__defineGetter__", "__defineSetter__", "hasOwnProperty",
   "__lookupGetter__", "__lookupSetter__", "isPrototypeOf",
   "propertyIsEnumerable", "toString", "valueOf", "__proto__",
   "toLocaleString"]

/-- A value read out of a `Record<string, SourceFile>` at runtime: an
own entry (a genuine `SourceFile`) or an inherited `Object.prototype`
member. -/
inductive JsPropValue where
  | own (f : SourceFile)
  | inheritedProp (name : String)
deriving DecidableEq

/-- JS property read `obj[k]` including the prototype chain: an own key
shadows the prototype; otherwise a key naming an `Object.prototype`
member yields the (truthy) inherited member. -/
def recGetJS (r : List (String × SourceFile)) (k : String) : Option JsPropValue :=
  match recGet r k with
  | some f => some (.own f)
  | none => if objectProtoProps.contains k then some (.inheritedProp k) else none

/-- The string a read value's `.content` coerces to when handed to
`extractImports`: an inherited member has no `content` property, and
`regex.exec(undefined)` stringifies its argument to `"undefined"`. -/
def jsContent : JsPropValue → String
  | .own f => f.content
  | .inheritedProp _ => "undefined"

/-- JS assignment `obj[k] = v` on a plain object: at `k = "__proto__"`
the inherited setter runs instead of creating an own entry (the write
mutates the object's prototype and leaves its own entries — what the
result mapping consists of — unchanged); every other key creates or
overwrites an own entry. -/
def recSetJS (r : List (String × JsPropValue)) (k : String) (v : JsPropValue) :
    List (String × JsPropValue) :=
  if k = "__proto__" then r else recSet r k v

/-- Strategy 2 with the bare read through the prototype chain. -/
def tryRelativeImportJS (importPath currentFile : String)
    (availableFiles : List (String × SourceFile)) : Option (String × JsPropValue) :=
  if startsWithJS importPath "./" || startsWithJS importPath "../" then
    let resolvedPath := resolveRelativeImport importPath currentFile
    (recGetJS availableFiles resolvedPath).map (fun v => (resolvedPath, v))
  else none

/-- Strategy 3 with the bare read through the prototype chain. -/
def tryRemappedImportJS (importPath : String) (remappings : List Remapping)
    (availableFiles : List (String × SourceFile)) : Option (String × JsPropValue) :=
  match resolveRemappedImport importPath remappings with
  | some remappedPath =>
    if remappedPath ≠ "" then
      (recGetJS availableFiles remappedPath).map (fun v => (remappedPath, v))
    else none
  | none => none

/-- `resolveImportPathCore` with the source's bare reads modelled
through the prototype chain (strategies 1–3 read
`availableFiles[path]` directly; strategy 4 iterates `Object.entries`,
own entries only, so it is unchanged). -/
def resolveImportPathCoreJS (importPath currentFile : String) (remappings : List Remapping)
    (availableFiles : List (String × SourceFile)) : Option (String × JsPropValue) :=
  match (recGetJS availableFiles importPath).map (fun v => (importPath, v)) with
  | some r => some r
  | none =>
    match tryRelativeImportJS importPath currentFile availableFiles with
    | some r => some r
    | none =>
      match tryRemappedImportJS importPath remappings availableFiles with
      | some r => some r
      | none =>
        (tryFilenameFallback importPath availableFiles).map (fun e => (e.1, .own e.2))

/-- `resolveImportPath` over the prototype-aware strategy chain. -/
def resolveImportPathJS (importPath currentFile : String) (remappings : List Remapping)
    (availableFiles : List (String × SourceFile)) :
    Option (String × JsPropValue) × List (String × String) :=
  match resolveImportPathCoreJS importPath currentFile remappings availableFiles with
  | some r => (some r, [])
  | none => (none, [(importPath, currentFile)])

/-- `enqueueImports` over the prototype-aware resolver. -/
def enqueueImportsJS (imports : List String) (currentFile : String)
    (remappings : List Remapping) (availableFiles : List (String × SourceFile))
    (processed : List String) (queue : List String) (warns : List (String × String)) :
    List String × List (String × String) :=
  imports.foldl
    (fun qw importPath =>
      match resolveImportPathJS importPath currentFile remappings availableFiles with
      | (some r, w) =>
        (if processed.contains r.1 then qw.1 else qw.1 ++ [r.1], qw.2 ++ w)
      | (none, w) => (qw.1, qw.2 ++ w))
    (queue, warns)

/-- The BFS loop with the bare availability read
`allAvailableFiles[currentFile]` modelled through the prototype chain: a
dequeued key that is not an own key but names an `Object.prototype`
member is still truthy, is copied into the result, and contributes no
further imports (its content reads as `"undefined"`, which matches none
of the four patterns).  The fuel bound of `resolveNecessaryImportsJS`
therefore still dominates every enqueue: own keys are processed at most
once each, contributing at most their import counts, and prototype hits
contribute none. -/
def bfsLoopJS (remappings : List Remapping) (availableFiles : List (String × SourceFile)) :
    Nat → List String → List String → List (String × JsPropValue) →
    List (String × String) → List (String × JsPropValue) × List (String × String)
  | 0, _, _, necessaryFiles, warns => (necessaryFiles, warns)
  | _ + 1, [], _, necessaryFiles, warns => (necessaryFiles, warns)
  | fuel + 1, currentFile :: rest, processed, necessaryFiles, warns =>
    if processed.contains currentFile then
      bfsLoopJS remappings availableFiles fuel rest processed necessaryFiles warns
    else
      match recGetJS availableFiles currentFile with
      | none =>
        bfsLoopJS remappings availableFiles fuel rest (currentFile :: processed)
          necessaryFiles warns
      | some v =>
        let step := enqueueImportsJS (extractImports (jsContent v)) currentFile remappings
          availableFiles (currentFile :: processed) rest warns
        bfsLoopJS remappings availableFiles fuel step.1 (currentFile :: processed)
          (recSetJS necessaryFiles currentFile v) step.2

/-- `resolveNecessaryImports` with the bare reads modelled through the
prototype chain.  Seeds, the merged map and the fuel bound are as in
`resolveNecessaryImports` (they involve own keys and own entries only). -/
def resolveNecessaryImportsJS (resolver : ImportResolver) :
    List (String × JsPropValue) × List (String × String) :=
  let allAvailableFiles := recMerge resolver.sourceFiles resolver.remappedSourceFiles
  let queue := recKeys resolver.remappedSourceFiles
    ++ (recKeys resolver.sourceFiles).filter (fun p => !(hasRemappedVersion resolver p))
  let fuel := queue.length
    + (allAvailableFiles.map (fun e => (extractImports e.2.content).length)).sum
  bfsLoopJS resolver.remappings allAvailableFiles fuel queue [] [] []

/-! ## Specification-side selector for the remapped-import strategy

The spec describes the remapped-import strategy as "select the rule with
the longest `original` string (ties broken by first-declared order)".
`specLongestPrefixRule` is that description written directly: the first
list element whose `original` length is maximal.  The refinement theorem
for C6 compares `resolveRemappedImport` (translated from the source)
against it. -/

/-- First element of the list whose `original` is longest (earlier
elements win ties). -/
def specLongestPrefixRule : List Remapping → Option Remapping
  | [] => none
  | m :: ms =>
    match specLongestPrefixRule ms with
    | none => some m
    | some b => if m.original.length < b.original.length then some b else some m

/-! ## Concrete scenario inputs used by the claim theorems -/

/-- C1 / end-to-end scenario: three files, `C.sol` imported by nothing. -/
def c1SourceFiles : List (String × SourceFile) :=
  [("A.sol", ⟨"import \"./B.sol\";"⟩),
   ("B.sol", ⟨"contract B {}"⟩),
   ("C.sol", ⟨"contract C {}"⟩)]

/-- C1 resolver as `verify` builds it: no remappings. -/
def c1Resolver : ImportResolver :=
  { sourceFiles := c1SourceFiles
    remappedSourceFiles := createRemappedSourceFiles c1SourceFiles []
    remappings := [] }

/-- C2 scenario: files at both `"@lib/Token.sol"` and its rewritten path
`"lib/token/Token.sol"`, rule `"@lib/=lib/token/"`, seed importing
`"@lib/Token.sol"`. -/
def c2SourceFiles : List (String × SourceFile) :=
  [("Main.sol", ⟨"import \"@lib/Token.sol\";"⟩),
   ("@lib/Token.sol", ⟨"contract TokenOriginal {}"⟩),
   ("lib/token/Token.sol", ⟨"contract Token {}"⟩)]

/-- The parsed C2 remapping rule. -/
def c2Remappings : List Remapping := [⟨"@lib/", "lib/token/"⟩]

/-- C2 resolver as `verify` builds it. -/
def c2Resolver : ImportResolver :=
  { sourceFiles := c2SourceFiles
    remappedSourceFiles := createRemappedSourceFiles c2SourceFiles c2Remappings
    remappings := c2Remappings }

/-- C7 scenario: `Main.sol` imports one resolvable and one unresolvable
target. -/
def c7SourceFiles : List (String × SourceFile) :=
  [("Main.sol", ⟨"import \"./B.sol\"; import \"nonexistent/Thing.sol\";"⟩),
   ("B.sol", ⟨"contract B {}"⟩)]

/-- C7 resolver as `verify` builds it: no remappings. -/
def c7Resolver : ImportResolver :=
  { sourceFiles := c7SourceFiles
    remappedSourceFiles := createRemappedSourceFiles c7SourceFiles []
    remappings := [] }

/-- C10 scenario: one file whose import string, `"constructor"`, names
an `Object.prototype` member that the available set does not bind. -/
def c10ProtoSourceFiles : List (String × SourceFile) :=
  [("Main.sol", ⟨"import \"constructor\";"⟩)]

/-- C10 resolver as `verify` builds it: no remappings. -/
def c10ProtoResolver : ImportResolver :=
  { sourceFiles := c10ProtoSourceFiles
    remappedSourceFiles := createRemappedSourceFiles c10ProtoSourceFiles []
    remappings := [] }

/-- A well-formed request skeleton for the `verify` theorems. -/
def baseRequest : VerificationRequest :=
  { address := "0xA148538a450f8517563135A5f7c4ee0a9F54f811"
    language := "Solidity"
    compiler := "0.8.19+commit.7dd6d404"
    optimize := true
    optimizeRuns := 200
    sourceFiles := [("X.sol", ⟨"contract X {}"⟩)]
    license := "MIT"
    evmVersion := "paris"
    viaIR := false
    libraries := ""
    metadata := some ⟨some ⟨some []⟩⟩
    optimizerDetails := "" }

/-- C9: a request whose metadata carries a malformed remapping rule
(no `=`). -/
def c9BadRemappingRequest : VerificationRequest :=
  { baseRequest with metadata := some ⟨some ⟨some ["noequalsign"]⟩⟩ }

/-- C9: a request whose `metadata.settings.remappings` field is absent. -/
def c9MissingFieldRequest : VerificationRequest :=
  { baseRequest with metadata := some ⟨some ⟨none⟩⟩ }

/-- C9: a transport whose exchange always throws (network failure). -/
def c9FailTransport : String → RequestBody → Except JsError FilfoxResult :=
  fun _ _ => .error (.jsError "fetch failed")

end Filfox

/-! # Lemmas -/

namespace Filfox

theorem recGet_recSet {α : Type} (r : List (String × α)) (k k' : String) (v : α) :
    recGet (recSet r k v) k' = if k = k' then some v else recGet r k' := by
  induction r with
  | nil => simp [recSet, recGet]
  | cons e es ih =>
    by_cases he : e.1 = k
    · by_cases hk : k = k'
      · simp [recSet, recGet, he, hk]
      · have he' : ¬ e.1 = k' := fun h => hk (he.symm.trans h)
        simp [recSet, recGet, he, hk, he']
    · by_cases he' : e.1 = k' <;> by_cases hk : k = k' <;>
        simp_all [recSet, recGet]
  
theorem splitOnCharL_of_not_mem (sep : Char) :
    ∀ l : List Char, sep ∉ l → splitOnCharL sep l = [l] := by
  intro l
  induction l with
  | nil => intro _; rfl
  | cons c cs ih =>
    intro hl
    have hc : ¬ c = sep := fun h => hl (by simp [h])
    rw [splitOnCharL, if_neg hc, ih (fun h => hl (by simp [h]))]

theorem replaceFirstL_of_prefixHit (pat rep : List Char) :
    ∀ s : List Char, pat.isPrefixOf s = true →
      replaceFirstL pat rep s = rep ++ s.drop pat.length := by
  intro s h
  cases s with
  | nil => simp [replaceFirstL, h]
  | cons c cs => simp [replaceFirstL, h]

theorem insertByOrigLenDesc_head (m : Remapping) (s : List Remapping) :
    (insertByOrigLenDesc m s).head? =
      some (match s.head? with
        | none => m
        | some b => if m.original.length < b.original.length then b else m) := by
  cases s with
  | nil => rfl
  | cons b bs =>
    by_cases h : m.original.length < b.original.length <;>
      simp [insertByOrigLenDesc, h]

theorem stableSort_head (l : List Remapping) :
    (stableSortByOrigLenDesc l).head? = specLongestPrefixRule l := by
  induction l with
  | nil => rfl
  | cons m ms ih =>
    rw [stableSortByOrigLenDesc, insertByOrigLenDesc_head, ih, specLongestPrefixRule]
    cases h : specLongestPrefixRule ms with
    | none => rfl
    | some b => by_cases hl : m.original.length < b.original.length <;> simp [hl]

theorem specLongestPrefixRule_mem :
    ∀ (l : List Remapping) (m : Remapping), specLongestPrefixRule l = some m → m ∈ l := by
  intro l
  induction l with
  | nil => intro m h; cases h
  | cons a as ih =>
    intro m h
    rw [specLongestPrefixRule] at h
    cases hh : specLongestPrefixRule as with
    | none =>
      rw [hh] at h
      have h2 : (some a : Option Remapping) = some m := h
      injection h2 with h2
      subst h2
      exact List.mem_cons_self a as
    | some b =>
      rw [hh] at h
      have h2 : (if a.original.length < b.original.length then some b else some a)
          = some m := h
      by_cases hlen : a.original.length < b.original.length
      · rw [if_pos hlen] at h2
        injection h2 with h2
        subst h2
        exact List.mem_cons_of_mem a (ih b hh)
      · rw [if_neg hlen] at h2
        injection h2 with h2
        subst h2
        exact List.mem_cons_self a as

theorem pushImport_nodup (acc : List String) (p : String) (h : acc.Nodup) :
    (pushImport acc p).Nodup := by
  unfold pushImport
  split
  · next hcond =>
    have hp : p ∉ acc := by
      have h2 := (Bool.and_eq_true _ _).mp hcond |>.2
      simp at h2
      simpa using h2
    simp [List.nodup_append, h, hp]
  · exact h

theorem foldl_pushImport_nodup :
    ∀ (ms acc : List String), acc.Nodup → (ms.foldl pushImport acc).Nodup := by
  intro ms
  induction ms with
  | nil => exact fun _ h => h
  | cons m ms ih =>
    intro acc h
    rw [List.foldl_cons]
    exact ih _ (pushImport_nodup acc m h)

theorem extractImports_nodup (content : String) : (extractImports content).Nodup :=
  foldl_pushImport_nodup _ [] List.nodup_nil

theorem recGetJS_cases (r : List (String × SourceFile)) (k : String) (v : JsPropValue)
    (h : recGetJS r k = some v) :
    (∃ f, v = .own f ∧ recGet r k = some f)
    ∨ (v = .inheritedProp k ∧ objectProtoProps.contains k = true ∧ recGet r k = none) := by
  unfold recGetJS at h
  cases hg : recGet r k with
  | some f =>
    rw [hg] at h
    have h2 : some (JsPropValue.own f) = some v := h
    injection h2 with h2
    exact .inl ⟨f, h2.symm, rfl⟩
  | none =>
    rw [hg] at h
    have h2 : (if objectProtoProps.contains k then some (JsPropValue.inheritedProp k)
        else none) = some v := h
    by_cases hp : objectProtoProps.contains k = true
    · rw [if_pos hp] at h2
      injection h2 with h2
      exact .inr ⟨h2.symm, hp, rfl⟩
    · rw [if_neg hp] at h2
      cases h2

theorem bfsLoopJS_own_or_proto (remappings : List Remapping)
    (avail : List (String × SourceFile)) :
    ∀ (fuel : Nat) (queue processed : List String) (acc : List (String × JsPropValue))
      (warns : List (String × String)),
      (∀ k v, recGet acc k = some v →
        (∃ f, v = .own f ∧ recGet avail k = some f)
        ∨ (v = .inheritedProp k ∧ objectProtoProps.contains k = true
            ∧ recGet avail k = none)) →
      ∀ k v, recGet (bfsLoopJS remappings avail fuel queue processed acc warns).1 k = some v →
        (∃ f, v = .own f ∧ recGet avail k = some f)
        ∨ (v = .inheritedProp k ∧ objectProtoProps.contains k = true
            ∧ recGet avail k = none) := by
  intro fuel
  induction fuel with
  | zero =>
    intro queue processed acc warns hacc k v h
    simp only [bfsLoopJS] at h
    exact hacc k v h
  | succ n ih =>
    intro queue processed acc warns hacc k v h
    cases queue with
    | nil =>
      simp only [bfsLoopJS] at h
      exact hacc k v h
    | cons c rest =>
      simp only [bfsLoopJS] at h
      by_cases hc : processed.contains c = true
      · rw [if_pos hc] at h
        exact ih rest processed acc warns hacc k v h
      · rw [if_neg hc] at h
        cases hav : recGetJS avail c with
        | none =>
          rw [hav] at h
          exact ih rest (c :: processed) acc warns hacc k v h
        | some val =>
          rw [hav] at h
          refine ih _ (c :: processed) (recSetJS acc c val) _ ?_ k v h
          intro k' v' h'
          unfold recSetJS at h'
          by_cases hpk : c = "__proto__"
          · rw [if_pos hpk] at h'
            exact hacc k' v' h'
          · rw [if_neg hpk] at h'
            rw [recGet_recSet] at h'
            by_cases hk : c = k'
            · rw [if_pos hk] at h'
              injection h' with h'
              subst hk
              rw [← h']
              exact recGetJS_cases avail c val hav
            · rw [if_neg hk] at h'
              exact hacc k' v' h'

end Filfox

/-! # Claim theorems -/

namespace Filfox

/-- C1 (counterexample): for the available file set `{A.sol, B.sol,
C.sol}` of the claim and no remappings, the key set of
`resolveNecessaryImports` is NOT `{A.sol, B.sol}` — the unreferenced
`C.sol` is also a key, because every caller-supplied file is enqueued as
a seed. -/
theorem c1_counterexample :
    ¬ (∀ k : String,
        k ∈ recKeys (resolveNecessaryImports c1Resolver).1 ↔ (k = "A.sol" ∨ k = "B.sol")) := by
  intro hclaim
  have hc := (hclaim "C.sol").mp (by decide)
  revert hc
  decide

/-- C1 (amended): for that input the key set is exactly
`{A.sol, B.sol, C.sol}` — with no remappings every available file is a
seed of the traversal and is therefore included, whether or not any
reachable import chain arrives at it; only a file that is neither seeded nor reached
by a resolved import is excluded. -/
theorem c1_closure_keeps_every_seeded_file :
    recKeys (resolveNecessaryImports c1Resolver).1 = ["A.sol", "B.sol", "C.sol"] := by
  decide

/-- C2 (counterexample): with rule `"@lib/=lib/token/"`, files at both
`"@lib/Token.sol"` and `"lib/token/Token.sol"`, and a seed importing
`"@lib/Token.sol"`, the closure has NO entry at the claimed key
`"lib/token/Token.sol"`. -/
theorem c2_counterexample :
    recGet (resolveNecessaryImports c2Resolver).1 "lib/token/Token.sol" = none := by
  decide

/-- C2 (amended): the closure contains exactly one Token entry, but it is
keyed at `"@lib/Token.sol"` (the rule's `original` side — the alias that
`createRemappedSourceFiles` creates points from the `resolved`-side path
back to the `original`-side path), and it carries the content of the file
stored at `"lib/token/Token.sol"`, which shadows the `"@lib/Token.sol"`
original in the merged available map. -/
theorem c2_alias_keyed_at_original_side :
    (resolveNecessaryImports c2Resolver).1
      = [("@lib/Token.sol", ⟨"contract Token {}"⟩),
         ("Main.sol", ⟨"import \"@lib/Token.sol\";"⟩)]
    ∧ (recKeys (resolveNecessaryImports c2Resolver).1).filter
        (fun k => basenameJS k = "Token.sol") = ["@lib/Token.sol"] := by
  constructor
  · decide
  · decide

/-- C3 (counterexample): a rule whose left side is empty after trimming
is not rejected — it produces `{original: "", resolved: "b"}` with no
error of any kind; and `"a=b=c"` keeps only `"b"` as the `resolved`
side, not everything after the first `=`. -/
theorem c3_counterexample :
    parseRemappings [" =b"] = .ok [⟨"", "b"⟩]
    ∧ parseRemappings ["a=b=c"] = .ok [⟨"a", "b"⟩] := by
  constructor
  · decide
  · decide

/-- C3 (amended): `parseRemappings` splits each rule on `=` and keeps the
first two pieces (text after a second `=` is dropped), trimming both; a
rule with no `=` throws a `TypeError` (from calling `trim` on
`undefined`), not a dedicated configuration error; an empty side after
trimming is not checked and yields a rule with that side empty. -/
theorem c3_parseRemappings_behaviour :
    (∀ s : String, '=' ∉ s.data →
      parseRemappings [s]
        = .error (.typeError "Cannot read properties of undefined (reading trim)"))
    ∧ parseRemappings [" a = b "] = .ok [⟨"a", "b"⟩]
    ∧ parseRemappings [" =b"] = .ok [⟨"", "b"⟩]
    ∧ parseRemappings ["a=b=c"] = .ok [⟨"a", "b"⟩] := by
  refine ⟨?_, by decide, by decide, by decide⟩
  intro s hs
  have h1 : splitOnCharL '=' s.data = [s.data] := splitOnCharL_of_not_mem '=' s.data hs
  rw [parseRemappings, parseRemapping1, splitJS, h1]
  rfl

/-- C3 (witness). -/
theorem c3_parseRemappings_behaviour_witness :
    parseRemappings ["noequalsign"]
      = .error (.typeError "Cannot read properties of undefined (reading trim)") :=
  c3_parseRemappings_behaviour.1 "noequalsign" (by decide)

/-- C4 (counterexample): `normalizeCompilerVersion "1v" = "1v"` — the
input contains a `v`, so it is returned unchanged, yet the result does
not start with `"v"`, contradicting both "the result starts with v" and
"equals v prepended to the input otherwise". -/
theorem c4_counterexample :
    normalizeCompilerVersion "1v" = "1v"
    ∧ startsWithJS (normalizeCompilerVersion "1v") "v" = false := by
  constructor
  · decide
  · decide

/-- C4 (amended): the check is containment, not a leading marker — the
input is returned unchanged whenever it contains `v` anywhere, and `"v"`
is prepended (then the result does start with `"v"`) only when the input
contains no `v` at all. -/
theorem c4_normalize_checks_containment :
    ∀ compiler : String,
      (includesCharJS compiler 'v' = true → normalizeCompilerVersion compiler = compiler)
      ∧ (includesCharJS compiler 'v' = false →
          normalizeCompilerVersion compiler = "v" ++ compiler
          ∧ startsWithJS (normalizeCompilerVersion compiler) "v" = true) := by
  intro compiler
  constructor
  · intro h
    simp [normalizeCompilerVersion, h]
  · intro h
    have he : normalizeCompilerVersion compiler = "v" ++ compiler := by
      simp [normalizeCompilerVersion, h]
    refine ⟨he, ?_⟩
    rw [he]
    show List.isPrefixOf "v".data ("v" ++ compiler).data = true
    have hd : ("v" ++ compiler).data = 'v' :: compiler.data := by
      cases compiler with
      | mk l => rfl
    rw [hd]
    show List.isPrefixOf ['v'] ('v' :: compiler.data) = true
    simp [List.isPrefixOf_cons₂]

/-- C4 (witness). -/
theorem c4_normalize_checks_containment_witness :
    normalizeCompilerVersion "1v" = "1v"
    ∧ normalizeCompilerVersion "0.8.19+commit.7dd6d404" = "v0.8.19+commit.7dd6d404" :=
  ⟨(c4_normalize_checks_containment "1v").1 (by decide),
   ((c4_normalize_checks_containment "0.8.19+commit.7dd6d404").2 (by decide)).1⟩

/-- C5 (counterexample): in the content
`import { A } from "p1"; import "p2";` the brace-form import of `"p1"`
appears first in the text, but `extractImports` returns `["p2", "p1"]` —
the plain-quote regex runs before the brace regex — contradicting
first-appearance order across interleaved lexical forms. -/
theorem c5_counterexample :
    extractImports "import { A } from \"p1\";\nimport \"p2\";" = ["p2", "p1"]
    ∧ extractImports "import { A } from \"p1\";\nimport \"p2\";" ≠ ["p1", "p2"] := by
  constructor
  · decide
  · decide

/-- C5 (amended): `extractImports` returns the distinct targets with
duplicates removed, but ordered by lexical form first (plain `import
"p"`, then brace-from, then star-as-from, then identifier-from — the
fixed order in which the four regexes are executed) and only within one
form by first appearance. -/
theorem c5_extract_grouped_by_form :
    (∀ content : String, (extractImports content).Nodup)
    ∧ extractImports
        "import X from \"f4\";\nimport { Y } from \"f2\";\nimport \"f1\";\nimport * as Z from \"f3\";"
        = ["f1", "f2", "f3", "f4"]
    ∧ extractImports "import \"a\"; import { B } from \"a\";" = ["a"] :=
  ⟨extractImports_nodup, by decide, by decide⟩

/-- C6: among the remapping rules whose `original` is a prefix of the
imported string, `resolveRemappedImport` picks the one with the longest
`original` (first-declared wins ties — the stable sort keeps earlier
rules in front of equally long ones) and replaces that prefix with the
rule's `resolved`; concretely, `"@oz/utils/Math.sol"` under
`"@oz/=lib/a/"` and `"@oz/utils/=lib/b/"` rewrites through the second,
longer rule to `"lib/b/Math.sol"`. -/
theorem c6_longest_prefix_remapping :
    (∀ (importPath : String) (remappings : List Remapping),
      resolveRemappedImport importPath remappings =
        (specLongestPrefixRule
            (remappings.filter (fun m => startsWithJS importPath m.original))).map
          (fun m => m.resolved ++ String.mk (importPath.data.drop m.original.length)))
    ∧ resolveRemappedImport "@oz/utils/Math.sol"
        [⟨"@oz/", "lib/a/"⟩, ⟨"@oz/utils/", "lib/b/"⟩] = some "lib/b/Math.sol" := by
  constructor
  · intro importPath remappings
    rw [resolveRemappedImport]
    cases hs : stableSortByOrigLenDesc
        (remappings.filter (fun m => startsWithJS importPath m.original)) with
    | nil =>
      have hnone : specLongestPrefixRule
          (remappings.filter (fun m => startsWithJS importPath m.original)) = none := by
        rw [← stableSort_head, hs]; rfl
      rw [hnone]
      rfl
    | cons m tl =>
      have hm : specLongestPrefixRule
          (remappings.filter (fun m => startsWithJS importPath m.original)) = some m := by
        rw [← stableSort_head, hs]; rfl
      rw [hm]
      have hmem := specLongestPrefixRule_mem _ m hm
      have hpre : startsWithJS importPath m.original = true := (List.mem_filter.mp hmem).2
      have hpre' : m.original.data.isPrefixOf importPath.data = true := hpre
      show some (replaceFirstJS importPath m.original m.resolved) = _
      rw [replaceFirstJS, replaceFirstL_of_prefixHit m.original.data m.resolved.data
        importPath.data hpre']
      rfl
  · decide

/-- C7: an import that no strategy resolves is non-fatal — whenever
`resolveImportPath` returns the unresolved result (`none`) it also emits
exactly the diagnostic naming the unresolved import and the referencing
file, and in the scenario of the spec (one file importing a resolvable
`./B.sol` and an unresolvable `nonexistent/Thing.sol`)
`resolveNecessaryImports` still returns the whole rest of the closure
with just that edge missing; the functions are total, so no exception
aborts the call. -/
theorem c7_unresolvable_import_nonfatal :
    (∀ (importPath currentFile : String) (remappings : List Remapping)
        (avail : List (String × SourceFile)),
      (resolveImportPath importPath currentFile remappings avail).1 = none →
      (resolveImportPath importPath currentFile remappings avail).2
        = [(importPath, currentFile)])
    ∧ resolveNecessaryImports c7Resolver
        = ([("Main.sol", ⟨"import \"./B.sol\"; import \"nonexistent/Thing.sol\";"⟩),
            ("B.sol", ⟨"contract B {}"⟩)],
           [("nonexistent/Thing.sol", "Main.sol")]) := by
  constructor
  · intro importPath currentFile remappings avail h
    unfold resolveImportPath at h ⊢
    cases hc : resolveImportPathCore importPath currentFile remappings avail with
    | none => rfl
    | some r =>
      rw [hc] at h
      simp at h
  · decide

/-- C7 (witness). -/
theorem c7_unresolvable_import_nonfatal_witness :
    (resolveImportPath "zzz/Q.sol" "F.sol" [] []).2 = [("zzz/Q.sol", "F.sol")] :=
  c7_unresolvable_import_nonfatal.1 "zzz/Q.sol" "F.sol" [] [] (by decide)

/-- C8: chain id 314 constructs a verifier pointed at the mainnet
endpoint, 314159 at the calibration endpoint, two distinct literal URLs,
and every other chain id makes the constructor throw — construction
happens before any request is built or any transport function is
invoked. -/
theorem c8_chain_endpoint_selection :
    Verifier.construct 314
      = .ok ⟨"https://filfox.info/api/v1/tools/verifyContract", 314⟩
    ∧ Verifier.construct 314159
      = .ok ⟨"https://calibration.filfox.info/api/v1/tools/verifyContract", 314159⟩
    ∧ ("https://filfox.info/api/v1/tools/verifyContract" : String)
        ≠ "https://calibration.filfox.info/api/v1/tools/verifyContract"
    ∧ ∀ chainId : Int, chainId ≠ 314 → chainId ≠ 314159 →
        Verifier.construct chainId = .error ("Unsupported chain ID: " ++ toString chainId) := by
  refine ⟨by decide, by decide, by decide, ?_⟩
  intro c h1 h2
  rw [Verifier.construct, FILFOX_NETWORKS, if_neg h1, if_neg h2]

/-- C8 (witness). -/
theorem c8_chain_endpoint_selection_witness :
    Verifier.construct 999 = .error ("Unsupported chain ID: " ++ toString (999 : Int)) :=
  c8_chain_endpoint_selection.2.2.2 999 (by decide) (by decide)

/-- C9: `verify` never throws — every error raised inside it (a
malformed remapping rule, a missing `metadata.settings.remappings`
field, a transport failure) reaches the `catch` and is returned as the
same synthetic `{ errorCode: 8 }` value, indistinguishable at the public
interface. -/
theorem c9_verify_never_throws :
    (∀ (v : Verifier) (request : VerificationRequest)
        (transport : String → RequestBody → Except JsError FilfoxResult) (e : JsError),
      verifyInner v request transport = .error e →
      verify v request transport
        = { errorCode := 8, contractName := none, errorMsg := none })
    ∧ (∀ (v : Verifier) (transport : String → RequestBody → Except JsError FilfoxResult),
        verify v c9BadRemappingRequest transport
          = { errorCode := 8, contractName := none, errorMsg := none })
    ∧ (∀ (v : Verifier) (transport : String → RequestBody → Except JsError FilfoxResult),
        verify v c9MissingFieldRequest transport
          = { errorCode := 8, contractName := none, errorMsg := none })
    ∧ (∀ (v : Verifier) (request : VerificationRequest),
        verify v request c9FailTransport
          = { errorCode := 8, contractName := none, errorMsg := none }) := by
  refine ⟨?_, ?_, ?_, ?_⟩
  · intro v request transport e h
    unfold verify
    rw [h]
  · intro v transport
    rfl
  · intro v transport
    rfl
  · intro v request
    have h8 : ∃ e, verifyInner v request c9FailTransport = .error e := by
      unfold verifyInner
      split
      · next e _ => exact ⟨e, rfl⟩
      · split
        · next e _ => exact ⟨e, rfl⟩
        · exact ⟨.jsError "fetch failed", rfl⟩
    obtain ⟨e, he⟩ := h8
    unfold verify
    rw [he]

/-- C9 (witness). -/
theorem c9_verify_never_throws_witness :
    verify ⟨"https://filfox.info/api/v1/tools/verifyContract", 314⟩
      c9BadRemappingRequest c9FailTransport
      = { errorCode := 8, contractName := none, errorMsg := none } :=
  c9_verify_never_throws.1 ⟨"https://filfox.info/api/v1/tools/verifyContract", 314⟩
    c9BadRemappingRequest c9FailTransport
    (.typeError "Cannot read properties of undefined (reading trim)") rfl

/-- C10 (counterexample): the bare reads `availableFiles[importPath]`
and `allAvailableFiles[currentFile]` consult the JS prototype chain, so
a file whose import string is `"constructor"` — an `Object.prototype`
member name bound nowhere in the available set — makes strategy 1
"resolve" the inherited member; the key is enqueued, passes the (also
prototype-chain) availability check, and the returned map gains an
entry at `"constructor"` storing the inherited member, even though
`"constructor"` is not a key of the combined available map.  The result
is therefore not a sub-map of that map. -/
theorem c10_counterexample :
    recGet (resolveNecessaryImportsJS c10ProtoResolver).1 "constructor"
      = some (JsPropValue.inheritedProp "constructor")
    ∧ recGet (recMerge c10ProtoResolver.sourceFiles c10ProtoResolver.remappedSourceFiles)
        "constructor" = none := by
  constructor
  · decide
  · decide

/-- C10 (amended): every entry of the result map is either an own entry
of the combined available map (its key bound there, aliases shadowing
originals on equal keys, with exactly that content) or a prototype hit:
its key names an `Object.prototype` member the combined map does not
bind, and it stores the inherited member — never a caller-supplied
file.  No other path or content can appear in the result. -/
theorem c10_result_own_or_proto :
    ∀ (resolver : ImportResolver) (k : String) (v : JsPropValue),
      recGet (resolveNecessaryImportsJS resolver).1 k = some v →
      (∃ f, v = .own f ∧
        recGet (recMerge resolver.sourceFiles resolver.remappedSourceFiles) k = some f)
      ∨ (v = .inheritedProp k ∧ objectProtoProps.contains k = true ∧
          recGet (recMerge resolver.sourceFiles resolver.remappedSourceFiles) k = none) := by
  intro resolver k v h
  unfold resolveNecessaryImportsJS at h
  exact bfsLoopJS_own_or_proto _ _ _ _ _ _ _ (fun k v hk => by simp [recGet] at hk) k v h

/-- C10 (witness). -/
theorem c10_result_own_or_proto_witness :
    (∃ f, JsPropValue.own ⟨"import \"constructor\";"⟩ = JsPropValue.own f ∧
      recGet (recMerge c10ProtoResolver.sourceFiles c10ProtoResolver.remappedSourceFiles)
        "Main.sol" = some f)
    ∨ (JsPropValue.own ⟨"import \"constructor\";"⟩ = JsPropValue.inheritedProp "Main.sol"
        ∧ objectProtoProps.contains "Main.sol" = true
        ∧ recGet (recMerge c10ProtoResolver.sourceFiles c10ProtoResolver.remappedSourceFiles)
            "Main.sol" = none) :=
  c10_result_own_or_proto c10ProtoResolver "Main.sol" (.own ⟨"import \"constructor\";"⟩)
    (by decide)

end Filfox
